import Mathlib

set_option maxRecDepth 10000

/-!
Verification development for the Bulbapedia movepool dashboard's
scraping/normalization pipeline (`movepool_dashboard.py`).

The Python functions are shallowly embedded as executable Lean definitions:
strings are `String`/`List Char`, the parsed HTML page is an explicit tree
(`Movepool.Node`), BeautifulSoup traversals become preorder walks over that
tree, and Python's `None`/exceptions become `Option`/`Except`.  Regular
expressions used by the source are compiled by hand into the equivalent
first-match functions, following Python's greedy-with-backtracking semantics
on the pattern shapes that actually occur.
-/

namespace Movepool

/-! ### String helpers mirroring the Python primitives -/

/-- ASCII whitespace as recognized by `str.strip` / `\s` (inputs are ASCII plus
the em dash, which is not whitespace). -/
def isPySpace (c : Char) : Bool :=
  c == ' ' || c == '\t' || c == '\n' || c == '\r' || c == '\x0b' || c == '\x0c'

def pyStripL (l : List Char) : List Char :=
  ((l.dropWhile isPySpace).reverse.dropWhile isPySpace).reverse

/-- Python `s.strip()`. -/
def pyStrip (s : String) : String := (pyStripL s.data).asString

/-- Python `s.lower()` (ASCII inputs). -/
def pyLower (s : String) : String := (s.data.map Char.toLower).asString

/-- Python `s.upper()` (ASCII inputs). -/
def pyUpper (s : String) : String := (s.data.map Char.toUpper).asString

def containsSubList (needle : List Char) : List Char → Bool
  | [] => needle.isEmpty
  | c :: t => needle.isPrefixOf (c :: t) || containsSubList needle t

/-- Python `needle in hay` on strings. -/
def strContains (hay needle : String) : Bool := containsSubList needle.data hay.data

def collapseWsFuel : Nat → List Char → List Char
  | _, [] => []
  | 0, l => l
  | f+1, c :: t =>
    if isPySpace c then ' ' :: collapseWsFuel f (t.dropWhile isPySpace)
    else c :: collapseWsFuel f t

/-- Python `re.sub(r"\s+", " ", s)`: collapse whitespace runs to single spaces.
(The fuel argument is only a structural-termination device; `s.length` fuel
always suffices since each step consumes at least one character.) -/
def collapseWs (s : String) : String := (collapseWsFuel s.data.length s.data).asString

def replaceFuel (pat rep : List Char) : Nat → List Char → List Char
  | _, [] => []
  | 0, l => l
  | f+1, c :: t =>
    if !pat.isEmpty && pat.isPrefixOf (c :: t) then
      rep ++ replaceFuel pat rep f ((c :: t).drop pat.length)
    else c :: replaceFuel pat rep f t

/-- Python `s.replace(old, new)`: replace all occurrences, left to right,
non-overlapping. -/
def replaceStr (s old new : String) : String :=
  (replaceFuel old.data new.data s.data.length s.data).asString

/-- Python `" ".join(l)`. -/
def joinSpace : List String → String
  | [] => ""
  | [s] => s
  | s :: rest => s ++ " " ++ joinSpace rest

/-- Python `"".join(l)`. -/
def concatAll : List String → String
  | [] => ""
  | s :: rest => s ++ concatAll rest

def isDigitC (c : Char) : Bool := '0' ≤ c && c ≤ '9'

/-! ### `clean_value`: repair of garbled numeric cell values

The Python source applies five regexes in order.  Each is embedded as the
function computing exactly what `re.match` + the used capture group yield.
-/

/-- One attempt of `(\d+)\1$` on the remainder `r` after `0*` consumed a fixed
number of zeros: the backreference forces group 1 to be exactly the first half
of `r`, so the match (if any) is unique. -/
def halvesMatch (r : List Char) : Option (List Char) :=
  if r.length % 2 == 0 && r.length != 0 then
    let d := r.take (r.length / 2)
    if d.all isDigitC && r.drop (r.length / 2) == d then some d else none
  else none

def pat1Go (s : List Char) : Nat → Option (List Char)
  | 0 => halvesMatch s
  | k+1 =>
    match halvesMatch (s.drop (k+1)) with
    | some d => some d
    | none => pat1Go s k

/-- `re.match(r"^0*(\d+)\1$", val)`, returning group 1.  `0*` is greedy, so
the engine first consumes all leading zeros and backtracks one zero at a
time; for each fixed consumption the doubled block is forced (see
`halvesMatch`). -/
def pat1 (s : List Char) : Option (List Char) :=
  pat1Go s (s.takeWhile (· == '0')).length

/-- `re.match(r"\d+\x7d\x7d(\d+%?)$", val)`, returning group 1.  The leading
`\d+` must be the whole initial digit run (the next character must be a
brace), and the anchored group is forced to be the whole tail. -/
def pat2 (s : List Char) : Option (List Char) :=
  let a := s.takeWhile isDigitC
  let r := s.drop a.length
  if a.isEmpty then none
  else if r.take 2 == ['}', '}'] then
    let b := r.drop 2
    let core := if b.getLast? == some '%' then b.dropLast else b
    if !core.isEmpty && core.all isDigitC then some b else none
  else none

/-- `re.match(r"^0+—$", val)` as a Bool. -/
def pat3 (s : List Char) : Bool :=
  let zs := s.takeWhile (· == '0')
  !zs.isEmpty && s.drop zs.length == ['—']

/-- `re.match(r"^\d+—%?$", val)` as a Bool. -/
def pat5 (s : List Char) : Bool :=
  let a := s.takeWhile isDigitC
  let r := s.drop a.length
  !a.isEmpty && (r == ['—'] || r == ['—', '%'])

/-- `clean_value` from `movepool_dashboard.py`: tries the five corruption
patterns in order, returning the first match's canonical form, else the
input unchanged, with an em-dash placeholder for empty input. -/
def clean_value (val : String) : String :=
  let s := val.data
  match pat1 s with
  | some d => d.asString
  | none =>
    match pat2 s with
    | some b => b.asString
    | none =>
      if pat3 s then "—"
      else if containsSubList ['—'] s && containsSubList ['}', '}'] s then "—"
      else if pat5 s then "—"
      else if s.isEmpty then "—" else val

/-! ### The parsed-page tree

BeautifulSoup's document is embedded as a tree of element and text nodes.
`NodeList` is a bespoke list so that all tree recursions are plainly
structural (and hence compute by `rfl`/`decide`).  A node inside a document
is identified by its `Path`: the list of child indices from the root, which
doubles as BeautifulSoup's object identity for nodes of one document.
-/

abbrev Attrs := List (String × String)

mutual

inductive Node where
  | elem : String → Attrs → NodeList → Node
  | text : String → Node

inductive NodeList where
  | nil : NodeList
  | cons : Node → NodeList → NodeList

end

abbrev Path := List Nat

def nodeListOf : List Node → NodeList
  | [] => .nil
  | n :: rest => .cons n (nodeListOf rest)

/-- Convenience constructor for element nodes. -/
def E (name : String) (attrs : Attrs) (children : List Node) : Node :=
  .elem name attrs (nodeListOf children)

def NodeList.toList : NodeList → List Node
  | .nil => []
  | .cons n rest => n :: rest.toList

def childrenOf : Node → List Node
  | .elem _ _ cs => cs.toList
  | .text _ => []

def isTag : Node → Bool
  | .elem _ _ _ => true
  | .text _ => false

/-- `tag.name == nm` (false for text nodes). -/
def nameIs : Node → String → Bool
  | .elem n _ _, nm => n == nm
  | .text _, _ => false

def nameIn (n : Node) (nms : List String) : Bool :=
  nms.any (nameIs n)

/-- `tag.get(key)`: the attribute value if present (text nodes have none). -/
def attrGet : Node → String → Option String
  | .elem _ attrs _, key => (attrs.find? (fun kv => kv.1 == key)).map (fun kv => kv.2)
  | .text _, _ => none

/-- `tag.get(key, d)`. -/
def attrD (n : Node) (key d : String) : String := (attrGet n key).getD d

/-- Python truthiness of a bs4 Tag: `len(tag.contents) > 0`
(a childless anchor `span` is falsy). -/
def pyTruthyTag (n : Node) : Bool :=
  match n with
  | .elem _ _ cs => !cs.toList.isEmpty
  | .text s => !s.isEmpty

mutual

/-- All nodes of the subtree in document (preorder) order, with their paths;
the subtree root itself comes first. -/
def preorderFrom : Path → Node → List (Path × Node)
  | p, .elem n a cs => (p, .elem n a cs) :: preorderChildren p 0 cs
  | p, .text s => [(p, .text s)]

def preorderChildren : Path → Nat → NodeList → List (Path × Node)
  | _, _, .nil => []
  | p, i, .cons c rest => preorderFrom (p ++ [i]) c ++ preorderChildren p (i+1) rest

end

/-- All proper descendants of a node, in document order. -/
def descendants (n : Node) : List Node :=
  ((preorderFrom [] n).map Prod.snd).drop 1

/-- `tag.find(nm)`: first descendant element with the given name. -/
def findByName (nm : String) (n : Node) : Option Node :=
  (descendants n).find? (fun m => nameIs m nm)

/-- `tag.find_all(nm)`. -/
def findAllName (nm : String) (n : Node) : List Node :=
  (descendants n).filter (fun m => nameIs m nm)

/-- `tag.find_all([nm, ...])`. -/
def findAllNames (nms : List String) (n : Node) : List Node :=
  (descendants n).filter (fun m => nameIn m nms)

/-- Navigate from a node along a path of child indices. -/
def nodeAt : Node → Path → Option Node
  | n, [] => some n
  | n, i :: rest =>
    match (childrenOf n)[i]? with
    | some c => nodeAt c rest
    | none => none

/-- The part of a preorder listing strictly after the entry at path `p`
(used to model bs4's `find_all_next`, which walks `next_element` links:
these continue into the node's own subtree and then through the rest of the
document). -/
def afterPath (p : Path) : List (Path × Node) → List (Path × Node)
  | [] => []
  | (q, n) :: rest => if q == p then rest else afterPath p rest

/-- `anchor.find_all_next()`: every element (tag) after the node at `p` in
document order. -/
def tagsAfter (root : Node) (p : Path) : List (Path × Node) :=
  (afterPath p (preorderFrom [] root)).filter (fun pn => isTag pn.2)

/-! ### `clean_text` and the cell semantic extractors -/

/-- Whitespace-separated tokens of a string (fuel-structural; `length`
fuel always suffices). -/
def tokenizeFuel : Nat → List Char → List (List Char)
  | _, [] => []
  | 0, _ => []
  | f+1, l =>
    let l1 := (l.dropWhile isPySpace)
    let tok := l1.takeWhile (fun c => !isPySpace c)
    if tok.isEmpty then [] else tok :: tokenizeFuel f (l1.drop tok.length)

/-- bs4 `class_="sortkey"`: the class attribute, split on whitespace,
contains `"sortkey"`. -/
def hasSortkeyClass (n : Node) : Bool :=
  match attrGet n "class" with
  | some cl => (tokenizeFuel cl.data.length cl.data).contains "sortkey".data
  | none => false

/-- A tag matching `find_all("span", class_="sortkey")`. -/
def isSortkeySpan (n : Node) : Bool := nameIs n "span" && hasSortkeyClass n

/-- `re.compile(r"display:\s*none")` searched inside a style string. -/
def hasDisplayNone : List Char → Bool
  | [] => false
  | c :: t =>
    ("display:".data.isPrefixOf (c :: t)
      && "none".data.isPrefixOf (((c :: t).drop 8).dropWhile isPySpace))
    || hasDisplayNone t

/-- A tag matching `find_all(style=re.compile(r"display:\s*none"))`. -/
def isHiddenStyled (n : Node) : Bool :=
  match attrGet n "style" with
  | some st => hasDisplayNone st.data
  | none => false

mutual

/-- Remove (decompose) every descendant matching `p`; the node itself is
kept, since `find_all` only reaches descendants. -/
def removeDesc (p : Node → Bool) : Node → Node
  | .elem n a cs => .elem n a (removeDescList p cs)
  | .text s => .text s

def removeDescList (p : Node → Bool) : NodeList → NodeList
  | .nil => .nil
  | .cons c rest =>
    if p c then removeDescList p rest
    else .cons (removeDesc p c) (removeDescList p rest)

end

mutual

/-- The raw strings of all text nodes, in document order. -/
def rawTexts : Node → List String
  | .elem _ _ cs => rawTextsList cs
  | .text s => [s]

def rawTextsList : NodeList → List String
  | .nil => []
  | .cons c rest => rawTexts c ++ rawTextsList rest

end

/-- bs4 `get_text(strip=True)`: concatenate the stripped text fragments,
dropping those that strip to empty. -/
def getTextStrip (n : Node) : String :=
  concatAll (((rawTexts n).map pyStrip).filter (fun s => !s.isEmpty))

/-- `clean_text` from `movepool_dashboard.py`: operate on a copy of the
element (so the page tree is never mutated), decompose sort-key spans and
`display:none` elements, extract stripped text and collapse whitespace.
The Python `el is None` guard is handled at the only call sites that could
pass `None` (none in the modeled pipeline do). -/
def clean_text (el : Node) : String :=
  let elCopy := el
  let c1 := removeDesc isSortkeySpan elCopy
  let c2 := removeDesc isHiddenStyled c1
  collapseWs (getTextStrip c2)

/-- State-passing rendering of `clean_text` for the frame property: the
result is the extracted text together with the page element as it is left
after the call.  The source copies the element before decomposing, so the
original is returned untouched. -/
def clean_text_run (el : Node) : String × Node :=
  (clean_text el, el)

/-- `extract_type_from_cell`'s link predicate:
`title=lambda t: t and "(type)" in t`. -/
def titleHasType (n : Node) : Bool :=
  match attrGet n "title" with
  | some t => !t.isEmpty && strContains t "(type)"
  | none => false

/-- `extract_type_from_cell` from `movepool_dashboard.py`. -/
def extract_type_from_cell (cell : Node) : String :=
  match (descendants cell).find? (fun m => nameIs m "a" && titleHasType m) with
  | some link => replaceStr (attrD link "title" "") " (type)" ""
  | none => clean_text cell

/-- `is_stab` from `movepool_dashboard.py`. -/
def is_stab (cell : Node) : Bool :=
  (findByName "b" cell).isSome || (findByName "strong" cell).isSome

/-- `extract_father_images` from `movepool_dashboard.py`. -/
def extract_father_images (cell : Node) : String :=
  let parts := (findAllName "img" cell).map (fun img =>
    let src0 := attrD img "src" ""
    let src :=
      if "http".data.isPrefixOf src0.data then src0
      else if "//".data.isPrefixOf src0.data then "https:" ++ src0
      else "https://bulbapedia.bulbagarden.net" ++ src0
    let alt := attrD img "alt" ""
    "<img src=\"" ++ src ++ "\" alt=\"" ++ alt ++ "\" title=\"" ++ alt ++
      "\" style=\"width:32px;height:32px;image-rendering:pixelated;vertical-align:middle;margin:1px;\">")
  if parts.isEmpty then clean_text cell else joinSpace parts

/-- `game_available` from `movepool_dashboard.py`.  For generations 6 and 7
it inspects the style of the first `span` inside the first link (bs4 tag
truthiness applies: a childless tag is falsy); for all other generations it
checks the cell's own style for a white background and then for the presence
of a link. -/
def game_available (cell : Node) (gen : Nat) : Bool :=
  if gen == 6 || gen == 7 then
    match findByName "a" cell with
    | none => false
    | some link =>
      if !pyTruthyTag link then false
      else
        match findByName "span" link with
        | none => false
        | some span =>
          if !pyTruthyTag span then false
          else
            let style := attrD span "style" ""
            if strContains (pyUpper style) "#FFFFFF" then true
            else if strContains style "#FFF" then true
            else false
  else
    let style := attrD cell "style" ""
    if strContains style "rgb(255, 255, 255)"
        || strContains (pyUpper style) "background:#FFF"
        || strContains (pyUpper style) "background: #FFF" then false
    else (findByName "a" cell).isSome

def TYPE_COLORS : List (String × String) :=
  [("dark", "rgb(98, 77, 78)"), ("dragon", "rgb(80, 96, 225)"),
   ("electric", "rgb(250, 192, 0)"), ("fighting", "rgb(255, 128, 0)"),
   ("fire", "rgb(230, 40, 41)"), ("flying", "rgb(129, 185, 239)"),
   ("grass", "rgb(63, 161, 41)"), ("ground", "rgb(145, 81, 33)"),
   ("normal", "rgb(159, 161, 159)"), ("psychic", "rgb(239, 65, 121)"),
   ("rock", "rgb(175, 169, 129)"), ("steel", "rgb(96, 161, 184)"),
   ("water", "rgb(41, 128, 239)"), ("poison", "rgb(145, 65, 203)"),
   ("ice", "rgb(61, 206, 243)"), ("bug", "rgb(145, 161, 25)"),
   ("ghost", "rgb(112, 65, 112)"), ("fairy", "rgb(239, 112, 239)")]

/-- `type_cell_html` from `movepool_dashboard.py`. -/
def type_cell_html (type_name : String) : String :=
  let key := pyLower (pyStrip type_name)
  let bg := ((TYPE_COLORS.find? (fun kv => kv.1 == key)).map (fun kv => kv.2)).getD "#555"
  "<span class=\"type-cell\" style=\"background:" ++ bg ++
    ";display:inline-block;min-width:70px;\">" ++ type_name ++ "</span>"

/-! ### Table shape classification -/

/-- The predicate `_find_header_row` applies to one `tr`: at least 3 header
cells whose joined cleaned text contains both "move" and "type"
(case-insensitively). -/
def headerRowPred (row : Node) : Bool :=
  let ths := findAllName "th" row
  decide (ths.length ≥ 3) &&
    (let text := pyLower (joinSpace (ths.map clean_text))
     strContains text "move" && strContains text "type")

def findHeaderRowAux : Nat → List Node → Option (Nat × List Node)
  | _, [] => none
  | i, r :: rs =>
    if headerRowPred r then some (i, findAllName "th" r)
    else findHeaderRowAux (i+1) rs

/-- `_find_header_row` from `movepool_dashboard.py`: index and header cells
of the first row satisfying `headerRowPred`. -/
def _find_header_row (table : Node) : Option (Nat × List Node) :=
  findHeaderRowAux 0 (findAllName "tr" table)

/-- `_move_idx_from_headers` from `movepool_dashboard.py`. -/
def _move_idx_from_headers (headers_text : List String) : Option Nat :=
  headers_text.findIdx? (fun h => pyLower h == "move")

/-- `_has_cat` from `movepool_dashboard.py`. -/
def _has_cat (post_move_headers : List String) : Bool :=
  post_move_headers.any (fun h => strContains (pyLower h) "cat")

/-- `_is_footer_row` from `movepool_dashboard.py`. -/
def _is_footer_row (row : Node) : Bool :=
  let text := getTextStrip row
  if decide ((findAllName "td" row).length ≤ 2) then
    strContains text "Bold indicates" || strContains text "STAB"
      || strContains text "Click on the generation"
  else false

/-- The html assembled by `_build_table` when the row list is nonempty. -/
def buildTableString (headers rows : List String) : String :=
  "<table class=\"pokemon-table\"><thead><tr>" ++
    concatAll (headers.map (fun h => "<th>" ++ h ++ "</th>")) ++
    "</tr></thead><tbody>" ++ concatAll rows ++ "</tbody></table>"

/-- `_build_table` from `movepool_dashboard.py`: `None` for an empty row
list, else the assembled table html. -/
def _build_table (headers rows : List String) : Option String :=
  if rows.isEmpty then none else some (buildTableString headers rows)

/-- `_common_out_headers` from `movepool_dashboard.py`. -/
def _common_out_headers (has_cat : Bool) : List String :=
  ["Move", "Type"] ++ (if has_cat then ["Cat."] else []) ++ ["Pwr.", "Acc.", "PP"]

/-! ### Section row parsers

`Cfg` models the UI toggles and the external move-description lookup the
parsers consult (`show_descriptions`, `show_extended_desc`,
`get_move_description`). -/

structure Cfg where
  show_descriptions : Bool
  show_extended_desc : Bool
  move_desc : String → String

def cfg0 : Cfg := ⟨false, false, fun _ => ""⟩

/-- `_parse_move_type_cat_pwr_acc_pp` from `movepool_dashboard.py`.  All
call sites guarantee `move_idx < cells.length`, so the default node of
`getD` is never read. -/
def _parse_move_type_cat_pwr_acc_pp (cells : List Node) (move_idx : Nat)
    (has_cat : Bool) (description : String := "N/F") : List String :=
  let move_cell := cells.getD move_idx (.text "")
  let move_name := clean_text move_cell
  let cls := if is_stab move_cell then " class=\"stab-move\"" else ""
  let p0 := "<td" ++ cls ++ "><span title=\"" ++ description ++
    "\" style=\"cursor:help;\">" ++ move_name ++ "</span></td>"
  let p1 :=
    if move_idx + 1 < cells.length then
      "<td>" ++ type_cell_html (extract_type_from_cell (cells.getD (move_idx + 1) (.text ""))) ++ "</td>"
    else "<td>—</td>"
  let offset := move_idx + 2
  let pcat :=
    if has_cat then
      if offset < cells.length then ["<td>" ++ clean_text (cells.getD offset (.text "")) ++ "</td>"]
      else ["<td>—</td>"]
    else []
  let offset2 := if has_cat then offset + 1 else offset
  let stats := (List.range 3).map (fun j =>
    if offset2 + j < cells.length then
      "<td>" ++ clean_text (cells.getD (offset2 + j) (.text "")) ++ "</td>"
    else "<td>—</td>")
  [p0, p1] ++ pcat ++ stats

/-- The loop body of `parse_levelup`, processing one `tr` against the state
`(rows_html, first_data_row)`. -/
def levelupStep (cfg : Cfg) (move_idx : Nat) (cat : Bool) (out_headers : List String)
    (st : List String × Bool) (row : Node) : List String × Bool :=
  if _is_footer_row row then st
  else
    let cells := findAllNames ["td", "th"] row
    if cells.length < move_idx + 3 then st
    else
      let mName := clean_text (cells.getD move_idx (.text ""))
      let description := if cfg.show_descriptions then cfg.move_desc mName else "None"
      let row_values := (List.range move_idx).map (fun i => clean_text (cells.getD i (.text ""))) ++ [mName]
      let rv0 := row_values.getD 0 ""
      if st.2 && (rv0 == "Level" || rv0 == out_headers.getD 0 "") then (st.1, false)
      else
        let parts := (List.range move_idx).map
            (fun i => "<td>" ++ clean_text (cells.getD i (.text "")) ++ "</td>")
          ++ _parse_move_type_cat_pwr_acc_pp cells move_idx cat description
        (st.1 ++ ["<tr>" ++ concatAll parts ++ "</tr>"], false)

/-- `parse_levelup` from `movepool_dashboard.py`.  The unconditional debug
access `level_headers[0]` raises `IndexError` when the move column is the
first column; that exception is the `Except.error` branch. -/
def parse_levelup (cfg : Cfg) (table : Node) (gen : Nat) : Except String (Option String) :=
  match _find_header_row table with
  | none => .ok none
  | some (hdr_idx, hdr_ths) =>
    let headers_text := hdr_ths.map clean_text
    match _move_idx_from_headers headers_text with
    | none => .ok none
    | some move_idx =>
      let level_headers := headers_text.take move_idx
      let cat := _has_cat (headers_text.drop (move_idx + 1))
      let out_headers := level_headers ++ _common_out_headers cat
      if level_headers.isEmpty then .error "IndexError: level_headers[0]"
      else
        let dataRows := (findAllName "tr" table).drop (hdr_idx + 1)
        let res := dataRows.foldl (levelupStep cfg move_idx cat out_headers) ([], true)
        .ok (_build_table out_headers res.1)

/-- `re.match(r"(TM|HM|TR)\d+", t)` as a Bool (unanchored at the end). -/
def isTmCode (t : String) : Bool :=
  match t.data with
  | a :: b :: c :: _ =>
    ((a == 'T' && (b == 'M' || b == 'R')) || (a == 'H' && b == 'M')) && isDigitC c
  | _ => false

/-- A cell containing a link whose href matches
`lambda h: h and "_(move)" in h`. -/
def hasMoveLink (cell : Node) : Bool :=
  (descendants cell).any (fun m =>
    nameIs m "a" &&
      (match attrGet m "href" with
       | some h => !h.isEmpty && strContains h "_(move)"
       | none => false))

/-- The cell list `parse_tm_hm` works on: `find_all(["td","th"])` with an
empty-text leading cell stripped. -/
def tmRowCells (row : Node) : List Node :=
  let cells0 := findAllNames ["td", "th"] row
  if !cells0.isEmpty && (clean_text (cells0.getD 0 (.text ""))).isEmpty then cells0.drop 1
  else cells0

/-- The loop body of `parse_tm_hm`. -/
def tmStep (cfg : Cfg) (cat : Bool) (st : List String × Bool) (row : Node) :
    List String × Bool :=
  if _is_footer_row row then st
  else
    let cells := tmRowCells row
    if cells.length < 4 then st
    else
      let tm_text := (((cells.map clean_text).filter isTmCode).getD 0 "")
      if tm_text.isEmpty then st
      else
        match cells.findIdx? hasMoveLink with
        | none => st
        | some actual_move_idx =>
          if st.2 && tm_text == "TM" then (st.1, false)
          else
            let mName := clean_text (cells.getD actual_move_idx (.text ""))
            let description := if cfg.show_extended_desc then cfg.move_desc mName else "None"
            let parts := ("<td>" ++ tm_text ++ "</td>") ::
              _parse_move_type_cat_pwr_acc_pp cells actual_move_idx cat description
            (st.1 ++ ["<tr>" ++ concatAll parts ++ "</tr>"], false)

/-- `parse_tm_hm` from `movepool_dashboard.py`. -/
def parse_tm_hm (cfg : Cfg) (table : Node) (gen : Nat) : Except String (Option String) :=
  match _find_header_row table with
  | none => .ok none
  | some (hdr_idx, hdr_ths) =>
    let headers_text := hdr_ths.map clean_text
    match _move_idx_from_headers headers_text with
    | none => .ok none
    | some move_idx =>
      let cat := _has_cat (headers_text.drop (move_idx + 1))
      let out_headers := "TM" :: _common_out_headers cat
      let dataRows := (findAllName "tr" table).drop (hdr_idx + 1)
      let res := dataRows.foldl (tmStep cfg cat) ([], true)
      .ok (_build_table out_headers res.1)

/-- The loop body of `parse_breeding`. -/
def breedingStep (move_idx : Nat) (cat : Bool) (st : List String × Bool) (row : Node) :
    List String × Bool :=
  if _is_footer_row row then st
  else
    let cells := findAllNames ["td", "th"] row
    if cells.length < move_idx + 3 then st
    else
      let father_html := extract_father_images (cells.getD 0 (.text ""))
      let rv0 := clean_text (cells.getD 0 (.text ""))
      if st.2 && (rv0 == "Father" || rv0 == "Parent") then (st.1, false)
      else
        let parts := ("<td class=\"father-cell\">" ++ father_html ++ "</td>") ::
          _parse_move_type_cat_pwr_acc_pp cells move_idx cat
        (st.1 ++ ["<tr>" ++ concatAll parts ++ "</tr>"], false)

/-- `parse_breeding` from `movepool_dashboard.py`. -/
def parse_breeding (cfg : Cfg) (table : Node) (gen : Nat) : Except String (Option String) :=
  match _find_header_row table with
  | none => .ok none
  | some (hdr_idx, hdr_ths) =>
    let headers_text := hdr_ths.map clean_text
    match _move_idx_from_headers headers_text with
    | none => .ok none
    | some move_idx =>
      let cat := _has_cat (headers_text.drop (move_idx + 1))
      let out_headers := "Father" :: _common_out_headers cat
      let dataRows := (findAllName "tr" table).drop (hdr_idx + 1)
      let res := dataRows.foldl (breedingStep move_idx cat) ([], true)
      .ok (_build_table out_headers res.1)

/-- The loop body of `parse_tutoring`: state is
`(rows_html, game_headers?)`. -/
def tutorStep (gen : Nat) (cat : Bool) (st : List String × Option (List String))
    (row : Node) : List String × Option (List String) :=
  if _is_footer_row row then st
  else
    let ths := findAllName "th" row
    let tds := findAllName "td" row
    if tds.isEmpty || ths.isEmpty then st
    else
      let gh := match st.2 with
        | none => some (ths.map clean_text)
        | some g => some g
      match tds.findIdx? hasMoveLink with
      | none => (st.1, gh)
      | some actual_move_idx =>
        let availParts := ths.map (fun th =>
          if game_available th gen then "<td class=\"game-available\">✓</td>"
          else "<td class=\"game-unavailable\">—</td>")
        let parts := availParts ++ _parse_move_type_cat_pwr_acc_pp tds actual_move_idx cat
        (st.1 ++ ["<tr>" ++ concatAll parts ++ "</tr>"], gh)

/-- `parse_tutoring` from `movepool_dashboard.py`.  Game-availability
columns come from the header-typed cells of each data row; the move column
is located per row by its move-article link. -/
def parse_tutoring (cfg : Cfg) (table : Node) (gen : Nat) : Except String (Option String) :=
  match _find_header_row table with
  | none => .ok none
  | some (hdr_idx, hdr_ths) =>
    let headers_text := hdr_ths.map clean_text
    let cat := _has_cat headers_text
    let dataRows := (findAllName "tr" table).drop (hdr_idx + 1)
    let res := dataRows.foldl (tutorStep gen cat) ([], none)
    match res.2 with
    | none => .ok none
    | some game_headers => .ok (_build_table (game_headers ++ _common_out_headers cat) res.1)

/-- The loop body of `parse_prior_evo`. -/
def priorEvoStep (move_idx : Nat) (cat : Bool) (st : List String × Bool) (row : Node) :
    List String × Bool :=
  if _is_footer_row row then st
  else
    let cells := findAllNames ["td", "th"] row
    if cells.length < move_idx + 3 then st
    else
      let row_values := (List.range move_idx).map (fun i => clean_text (cells.getD i (.text "")))
        ++ [clean_text (cells.getD move_idx (.text ""))]
      if st.2 && row_values.getD 0 "" == "Stage" then (st.1, false)
      else
        let parts := (List.range move_idx).map (fun i =>
            let cell := cells.getD i (.text "")
            if (findByName "img" cell).isSome then
              "<td class=\"father-cell\">" ++ extract_father_images cell ++ "</td>"
            else "<td>" ++ clean_text cell ++ "</td>")
          ++ _parse_move_type_cat_pwr_acc_pp cells move_idx cat
        (st.1 ++ ["<tr>" ++ concatAll parts ++ "</tr>"], false)

/-- `parse_prior_evo` from `movepool_dashboard.py`. -/
def parse_prior_evo (cfg : Cfg) (table : Node) (gen : Nat) : Except String (Option String) :=
  match _find_header_row table with
  | none => .ok none
  | some (hdr_idx, hdr_ths) =>
    let headers_text := hdr_ths.map clean_text
    match _move_idx_from_headers headers_text with
    | none => .ok none
    | some move_idx =>
      let pre_headers := if (headers_text.take move_idx).isEmpty then ["Source"]
        else headers_text.take move_idx
      let cat := _has_cat (headers_text.drop (move_idx + 1))
      let out_headers := pre_headers ++ _common_out_headers cat
      let dataRows := (findAllName "tr" table).drop (hdr_idx + 1)
      let res := dataRows.foldl (priorEvoStep move_idx cat) ([], true)
      .ok (_build_table out_headers res.1)

/-! ### Section locator -/

def SECTION_KEYS : List (String × String) :=
  [("By leveling up", "By_leveling_up"),
   ("By TM/HM", "By_TM/HM"),
   ("By TM", "By_TM"),
   ("By TM/TR", "By_TM/TR"),
   ("By breeding", "By_breeding"),
   ("By tutoring", "By_tutoring"),
   ("By a prior Evolution", "By_a_prior_Evolution")]

/-- `DISPLAY_LABELS.get(label, label)`. -/
def displayLabel (label : String) : String :=
  if label == "By TM" || label == "By TM/TR" then "By TM/HM" else label

/-- `_find_section_anchor` from `movepool_dashboard.py`: exact id match,
then the id with `/` percent-encoded, then a fuzzy heading-text match over
`h4`/`h3`/`span` tags.  Returns the anchor with its document path. -/
def _find_section_anchor (soup : Node) (label : String) (anchor_id : String) :
    Option (Path × Node) :=
  let all := (preorderFrom [] soup).drop 1
  match all.find? (fun pn => attrGet pn.2 "id" == some anchor_id) with
  | some pn => some pn
  | none =>
    match all.find? (fun pn => attrGet pn.2 "id" == some (replaceStr anchor_id "/" "%2F")) with
    | some pn => some pn
    | none =>
      all.find? (fun pn =>
        nameIn pn.2 ["h4", "h3", "span"] &&
          strContains (pyLower (getTextStrip pn.2)) (pyLower label))

/-- The parent-ascent loop of `_find_table_after`: up to `fuel` (5) steps,
stopping early at an `h3`/`h4`/`h5`/`div` (or at the document root, which
has no parent). -/
def ascend (root : Node) : Nat → Path → Path
  | 0, p => p
  | k+1, p =>
    match nodeAt root p with
    | none => p
    | some n =>
      if nameIn n ["h3", "h4", "h5", "div"] then p
      else if p.isEmpty then ascend root k p
      else ascend root k p.dropLast

/-- A `table` containing at least one `td`. -/
def isDataTable (n : Node) : Bool :=
  nameIs n "table" && (findByName "td" n).isSome

def isHeading345 (n : Node) : Bool :=
  nameIs n "h3" || nameIs n "h4" || nameIs n "h5"

/-- The forward scan of `_find_table_after` over the `find_all_next`
stream: return the first data table, abort at any `h3`/`h4`/`h5` other than
the start node itself. -/
def scanTable (parentPath : Path) : List (Path × Node) → Option Node
  | [] => none
  | (q, n) :: rest =>
    if isDataTable n then some n
    else if isHeading345 n && q != parentPath then none
    else scanTable parentPath rest

/-- `_find_table_after` from `movepool_dashboard.py`, on the node at
`anchorPath` of `root`. -/
def _find_table_after (root : Node) (anchorPath : Path) : Option Node :=
  let p := ascend root 5 anchorPath
  scanTable p (tagsAfter root p)

/-! ### Fetch pipeline and multi-game resolver -/

/-- The dispatch `SECTION_PARSERS.get(label, parse_levelup)`. -/
def sectionParserFor (label : String) (cfg : Cfg) (table : Node) (gen : Nat) :
    Except String (Option String) :=
  if label == "By TM/HM" || label == "By TM" || label == "By TM/TR" then
    parse_tm_hm cfg table gen
  else if label == "By breeding" then parse_breeding cfg table gen
  else if label == "By tutoring" then parse_tutoring cfg table gen
  else if label == "By a prior Evolution" then parse_prior_evo cfg table gen
  else parse_levelup cfg table gen

/-- Python dict insertion `d[k] = v`: overwrite in place or append. -/
def dictInsert {α : Type} (k : String) (v : α) : List (String × α) → List (String × α)
  | [] => [(k, v)]
  | (k', v') :: rest => if k' == k then (k, v) :: rest else (k', v') :: dictInsert k v rest

/-- One iteration of the single-game section loop: locate the section's
anchor, find the following table, parse it, and record a non-empty result
under the display label. -/
def extractStep (cfg : Cfg) (soup : Node) (gen : Nat)
    (results : List (String × String)) (la : String × String) :
    Except String (List (String × String)) :=
  match _find_section_anchor soup la.1 la.2 with
  | none => pure results
  | some (p, _) =>
    match _find_table_after soup p with
    | none => pure results
    | some tbl => do
      let html ← sectionParserFor la.1 cfg tbl gen
      match html with
      | some h => pure (dictInsert (displayLabel la.1) h results)
      | none => pure results

/-- The single-game section loop shared by `fetch_learnset` and the
fallback branch of `fetch_learnset_multi_game`. -/
def extractSections (cfg : Cfg) (soup : Node) (gen : Nat) :
    Except String (List (String × String)) :=
  SECTION_KEYS.foldlM (extractStep cfg soup gen) []

def GEN7_GAMES : List (String × String) :=
  [("Sun, Moon, Ultra Sun and Ultra Moon", "SMUSUM"),
   ("Let\x27s Go, Pikachu! and Let\x27s Go, Eevee!", "LGPE")]

def GEN8_GAMES : List (String × String) :=
  [("Sword and Shield", "SwSh"),
   ("Brilliant Diamond and Shining Pearl", "BDSP")]

/-- `_normalize_text` from `movepool_dashboard.py`. -/
def _normalize_text (s : String) : String :=
  pyStrip (collapseWs (replaceStr (pyLower s) "," ", "))

/-- `_find_game_headers` from `movepool_dashboard.py`: the `h4` headings
matching a known game display name or short code for the generation. -/
def _find_game_headers (soup : Node) (gen : Nat) : List (String × String × Path) :=
  let games := if gen == 7 then GEN7_GAMES else if gen == 8 then GEN8_GAMES else []
  if games.isEmpty then []
  else
    ((preorderFrom [] soup).drop 1).filterMap (fun pn =>
      if nameIs pn.2 "h4" then
        let text := _normalize_text (getTextStrip pn.2)
        (games.find? (fun dk =>
          strContains text (_normalize_text dk.1) || strContains text (pyLower dk.2))).map
          (fun dk => (dk.1, dk.2, pn.1))
      else none)

def takeUntilPath (endP : Option Path) (l : List (Path × Node)) : List (Path × Node) :=
  match endP with
  | none => l
  | some q => l.takeWhile (fun pn => pn.1 != q)

/-- The per-node section-key match of `_get_sections_between`: a `span`
with an id containing the anchor id (or its `%2F`-encoded form), or an
`h4`/`h5` whose text contains the label. -/
def sectionKeyMatch (n : Node) (label anchor_id : String) : Bool :=
  (nameIs n "span" && !(attrD n "id" "").isEmpty &&
    (strContains (pyLower (attrD n "id" "")) (pyLower anchor_id) ||
     strContains (pyLower (attrD n "id" "")) (pyLower (replaceStr anchor_id "/" "%2F"))))
  || (nameIn n ["h4", "h5"] && strContains (pyLower (getTextStrip n)) (pyLower label))

/-- `_get_sections_between` from `movepool_dashboard.py`: walk the tags
after `startP` up to (excluding) `endP`, and at each node matching a
section key parse the following table with that section's parser (the
generation is hard-coded to 7 in the source). -/
def _get_sections_between (cfg : Cfg) (soup : Node) (startP : Path) (endP : Option Path) :
    Except String (List (String × String)) :=
  (takeUntilPath endP (tagsAfter soup startP)).foldlM (fun results pn => do
    match SECTION_KEYS.find? (fun la => sectionKeyMatch pn.2 la.1 la.2) with
    | none => pure results
    | some la =>
      match _find_table_after soup pn.1 with
      | none => pure results
      | some tbl => do
        let html ← sectionParserFor la.1 cfg tbl 7
        match html with
        | some h => pure (dictInsert (displayLabel la.1) h results)
        | none => pure results) []

/-- The gen-7 branch of `fetch_learnset_multi_game`: one nested section map
per game heading, spanning up to the next game heading. -/
def gen7Results (cfg : Cfg) (soup : Node) :
    List (String × String × Path) → Except String (List (String × List (String × String)))
  | [] => .ok []
  | (display, key, p) :: rest => do
    let endP := match rest with
      | [] => none
      | (_, _, q) :: _ => some q
    let sections ← _get_sections_between cfg soup p endP
    let tail ← gen7Results cfg soup rest
    if sections.isEmpty then pure tail
    else pure ((key, ("_display", display) :: sections) :: tail)

/-- `_detect_gen8_games` from `movepool_dashboard.py`. -/
def _detect_gen8_games (soup : Node) : List (String × String) :=
  go (((preorderFrom [] soup).drop 1).filter (fun pn => nameIs pn.2 "p"))
where
  go : List (Path × Node) → List (String × String)
    | [] => [("Sword and Shield", "SwSh")]
    | pn :: rest =>
      let text := pyLower (getTextStrip pn.2)
      if strContains text "is available in" then
        let games :=
          (if strContains text "sword and shield" then [("Sword and Shield", "SwSh")] else [])
          ++ (if strContains text "brilliant diamond" then
                [("Brilliant Diamond and Shining Pearl", "BDSP")] else [])
        if !games.isEmpty then games else go rest
      else go rest

/-- `_get_next_section_anchor` from `movepool_dashboard.py`.  Note the
Python `if anchor: return anchor` uses bs4 tag truthiness, so a childless
anchor is skipped. -/
def _get_next_section_anchor (soup : Node) (current_anchor_id : String) :
    Option (Path × Node) :=
  go SECTION_KEYS false
where
  go : List (String × String) → Bool → Option (Path × Node)
    | [], _ => none
    | (label, aid) :: rest, found =>
      if aid == current_anchor_id then go rest true
      else if found then
        match _find_section_anchor soup label aid with
        | some a => if pyTruthyTag a.2 then some a else go rest found
        | none => go rest found
      else go rest found

/-- The game-marker test of `_find_gen8_section_tables` for a `p` node:
the Python condition is `p_text in ("SwSh", "BDSP") or "Sw" in p_text and
"Sh" in p_text` (so the literal text "BDSP" also selects SwSh). -/
def gen8MarkerOf (p_text : String) : Option String :=
  if (p_text == "SwSh" || p_text == "BDSP")
      || (strContains p_text "Sw" && strContains p_text "Sh") then some "SwSh"
  else if strContains p_text "BD" && strContains p_text "SP" then some "BDSP"
  else none

/-- `_find_gen8_section_tables` from `movepool_dashboard.py`: walk forward
from the section anchor collecting data tables, attributing each to the
most recent game marker, or to a single "shared" bucket. -/
def _find_gen8_section_tables (soup : Node) (anchorP : Path)
    (nextAnchor : Option (Path × Node)) : List (String × Node) :=
  go (tagsAfter soup anchorP) none []
where
  go : List (Path × Node) → Option String → List (String × Node) → List (String × Node)
    | [], _, results => results
    | (q, n) :: rest, pending, results =>
      if nameIs n "h4" && q != anchorP then results
      else if (match nextAnchor with
               | some (np, nn) => pyTruthyTag nn && q == np
               | none => false) then results
      else
        let pending' :=
          if nameIs n "p" then
            match gen8MarkerOf (getTextStrip n) with
            | some g => some g
            | none => pending
          else pending
        if nameIs n "table" && (findByName "td" n).isSome then
          match pending' with
          | some g => go rest none (dictInsert g n results)
          | none =>
            if results.any (fun kv => kv.1 == "shared") then go rest none results
            else go rest none (dictInsert "shared" n results)
        else go rest pending' results

/-- The gen-8 branch body: seed one bucket per detected game, then fill in
each section's per-game tables ("shared" tables go to every bucket). -/
def gen8Results (cfg : Cfg) (soup : Node) (available_games : List (String × String)) :
    Except String (List (String × List (String × String))) :=
  SECTION_KEYS.foldlM (fun results la => do
    match _find_section_anchor soup la.1 la.2 with
    | none => pure results
    | some (p, anchorNode) =>
      if !pyTruthyTag anchorNode then pure results
      else
        let nextA := _get_next_section_anchor soup la.2
        let game_tables := _find_gen8_section_tables soup p nextA
        let dl := displayLabel la.1
        game_tables.foldlM (fun results gkTbl => do
          let html ← sectionParserFor la.1 cfg gkTbl.2 8
          match html with
          | none => pure results
          | some h =>
            if gkTbl.1 == "shared" then
              pure (results.map (fun km => (km.1, dictInsert dl h km.2)))
            else if results.any (fun km => km.1 == gkTbl.1) then
              pure (results.map (fun km =>
                if km.1 == gkTbl.1 then (km.1, dictInsert dl h km.2) else km))
            else pure results) results)
    (available_games.map (fun dk => (dk.2, [("_display", dk.1)])))

/-- The outcome of the HTTP fetch, as seen by the core:
a 404, a parsed page, or a transport failure (`requests.RequestException`). -/
inductive FetchOutcome where
  | notFound
  | okPage (page : Node)
  | failed (msg : String)

/-- A value of the resolver's heterogeneous result dict: either rendered
table html (single-game) or a nested per-game section map. -/
inductive RVal where
  | html (s : String)
  | sub (m : List (String × String))

/-- The single-game fallback tail of `fetch_learnset_multi_game`:
`return results if results else None`. -/
def fallbackResult (cfg : Cfg) (soup : Node) (gen : Nat) :
    Except String (Option (List (String × RVal))) := do
  let res ← extractSections cfg soup gen
  if res.isEmpty then pure none
  else pure (some (res.map (fun kv => (kv.1, RVal.html kv.2))))

/-- `fetch_learnset_multi_game` from `movepool_dashboard.py`.  A 404 and a
transport failure both return `None`; gen 7 tries heading-based game
branching, gen 8 marker-based branching, and everything falls back to the
single-game pipeline; an empty single-game result is also returned as
`None`. -/
def fetch_learnset_multi_game (cfg : Cfg) (outcome : FetchOutcome) (gen : Nat) :
    Except String (Option (List (String × RVal))) :=
  match outcome with
  | .notFound => .ok none
  | .failed _ => .ok none
  | .okPage soup =>
    if gen == 7 then do
      let gh := _find_game_headers soup 7
      if gh.length ≥ 2 then do
        let results ← gen7Results cfg soup gh
        if !results.isEmpty then
          pure (some (results.map (fun km => (km.1, RVal.sub km.2))))
        else fallbackResult cfg soup gen
      else fallbackResult cfg soup gen
    else if gen == 8 then do
      let ag := _detect_gen8_games soup
      if ag.length ≥ 2 then do
        let results ← gen8Results cfg soup ag
        if results.any (fun km => km.2.length > 1) then
          pure (some (results.map (fun km => (km.1, RVal.sub km.2))))
        else fallbackResult cfg soup gen
      else fallbackResult cfg soup gen
    else fallbackResult cfg soup gen

/-- `is_multi_game_result` from `movepool_dashboard.py`: false for a falsy
result (`None` or an empty dict), else true iff the first value is a
nested dict. -/
def is_multi_game_result (result : Option (List (String × RVal))) : Bool :=
  match result with
  | none => false
  | some [] => false
  | some (kv :: _) =>
    match kv.2 with
    | .sub _ => true
    | .html _ => false

/-! ### Concrete fixtures used by the theorems -/

/-- A generation-3-style availability cell: white inline background, with a
link to the game article. -/
def c1CellBg : Node :=
  E "td" [("style", "background:#FFFFFF")]
    [E "a" [("href", "/wiki/Pokemon_Emerald")] [.text "E"]]

/-- A generation-6-style availability cell: a link wrapping a white-font
span. -/
def c1CellFont : Node :=
  E "td" []
    [E "a" [("href", "/wiki/Pokemon_X_and_Y")]
      [E "span" [("style", "color:#FFFFFF")] [.text "XY"]]]

/-- The same generation-6 cell without the styled span. -/
def c1CellNoSpan : Node :=
  E "td" [] [E "a" [("href", "/wiki/Pokemon_X_and_Y")] [.text "XY"]]

def th (s : String) : Node := E "th" [] [.text s]

def td (s : String) : Node := E "td" [] [.text s]

/-- A tutoring table whose declared move column index is 2 but whose only
data row has just two cells (one game `th`, one `td` with a move link). -/
def c5TutorTable : Node :=
  E "table" []
    [E "tr" [] [th "GameA", th "GameB", th "Move", th "Type"],
     E "tr" []
       [E "th" [] [.text "E"],
        E "td" [] [E "a" [("href", "/wiki/Pound_(move)")] [.text "Pound"]]]]

/-- A two-cell data row (against a move column index of 2). -/
def c5ShortRow : Node := E "tr" [] [td "1", td "Tackle"]

/-- A header-detection fixture: the first row has only two header cells and
must be skipped; the second is the real header row. -/
def c6Row0 : Node := E "tr" [] [th "Gen", th "Notes"]

def c6Row1 : Node :=
  E "tr" [] [th "Level", th "Move", th "Type", th "Power", th "Accuracy", th "PP"]

def c6Table : Node := E "table" [] [c6Row0, c6Row1]

/-- C7 fixture: the anchor is an `h3`; the only following heading is an
`h4` (a LOWER level), after which a data table follows. -/
def c7Doc : Node :=
  E "[document]" []
    [E "div" []
      [E "h3" [] [.text "By leveling up"],
       E "h4" [] [.text "A subsection"],
       E "table" [] [E "tr" [] [E "td" [] [.text "x"]]]]]

def c7Table : Node := E "table" [] [E "tr" [] [E "td" [] [.text "x"]]]

/-- A minimal but complete learnset page: a level-up section anchor inside
an `h3`, followed by a well-formed level-up table with one data row. -/
def lvlTable : Node :=
  E "table" []
    [E "tr" [] [th "Level", th "Move", th "Type", th "Pwr.", th "Acc.", th "PP"],
     E "tr" [] [td "1", td "Tackle", td "Normal", td "40", td "100", td "35"]]

def pageA : Node :=
  E "[document]" []
    [E "div" []
      [E "h3" [] [E "span" [("id", "By_leveling_up")] [.text "By leveling up"]],
       lvlTable]]

/-- A page with no recognizable content at all. -/
def emptyPage : Node := E "[document]" [] []

/-- A cell whose visible text is surrounded by a sort-key span and a hidden
element, for the text-normalization claims. -/
def c10Cell : Node :=
  E "td" []
    [E "span" [("class", "sortkey")] [.text "040"],
     E "span" [("style", "display:none")] [.text "hidden"],
     .text " 40 "]

/-- The table html that `parse_tutoring` produces for `c5TutorTable`
(verified below by `rfl`): the two-cell data row IS emitted. -/
def c5TutorHtml : String :=
  "<table class=\"pokemon-table\"><thead><tr><th>E</th><th>Move</th><th>Type</th><th>Pwr.</th><th>Acc.</th><th>PP</th></tr></thead><tbody><tr><td class=\"game-unavailable\">—</td><td><span title=\"N/F\" style=\"cursor:help;\">Pound</span></td><td>—</td><td>—</td><td>—</td><td>—</td></tr></tbody></table>"

/-- The table html that the single-game pipeline extracts from `pageA`
(verified below by `rfl`). -/
def lvlHtml : String :=
  "<table class=\"pokemon-table\"><thead><tr><th>Level</th><th>Move</th><th>Type</th><th>Pwr.</th><th>Acc.</th><th>PP</th></tr></thead><tbody><tr><td>1</td><td><span title=\"None\" style=\"cursor:help;\">Tackle</span></td><td><span class=\"type-cell\" style=\"background:rgb(159, 161, 159);display:inline-block;min-width:70px;\">Normal</span></td><td>40</td><td>100</td><td>35</td></tr></tbody></table>"

/-! ### Helper lemmas -/

/-- The first list entry satisfying `headerRowPred` after a prefix of
non-matching rows is the one `findHeaderRowAux` returns. -/
theorem findHeaderRowAux_first_match :
    ∀ (pre : List Node) (i : Nat) (r : Node) (rest : List Node),
      (∀ r' ∈ pre, headerRowPred r' = false) → headerRowPred r = true →
      findHeaderRowAux i (pre ++ r :: rest) = some (i + pre.length, findAllName "th" r) := by
  intro pre
  induction pre with
  | nil =>
    intro i r rest _ hr
    simp [findHeaderRowAux, hr]
  | cons a as ih =>
    intro i r rest hpre hr
    have ha : headerRowPred a = false := hpre a (by simp)
    have hrec := ih (i + 1) r rest (fun r' h => hpre r' (by simp [h])) hr
    have harith : i + 1 + as.length = i + (as.length + 1) := by omega
    rw [harith] at hrec
    simpa [findHeaderRowAux, ha] using hrec

/-- `findIdx?` returns the length of the longest non-matching prefix. -/
theorem findIdx?_first_match {α : Type} (p : α → Bool) :
    ∀ (pre : List α) (x : α) (rest : List α),
      (∀ y ∈ pre, p y = false) → p x = true →
      (pre ++ x :: rest).findIdx? p = some pre.length := by
  intro pre
  induction pre with
  | nil =>
    intro x rest _ hx
    simp [List.findIdx?_cons, hx]
  | cons a as ih =>
    intro x rest hpre hx
    have ha : p a = false := hpre a (by simp)
    have := ih x rest (fun y h => hpre y (by simp [h])) hx
    simp [List.findIdx?_cons, ha, this]

/-- Membership after a Python-style dict insertion. -/
theorem dictInsert_mem {α : Type} (k : String) (v : α) :
    ∀ (l : List (String × α)) (m : String × α),
      m ∈ dictInsert k v l → m = (k, v) ∨ m ∈ l := by
  intro l
  induction l with
  | nil =>
    intro m hm
    simp [dictInsert] at hm
    simp [hm]
  | cons a as ih =>
    intro m hm
    by_cases hk : a.1 == k
    · simp [dictInsert, hk] at hm
      rcases hm with h | h
      · left; simp [h]
      · right; simp [h]
    · simp [dictInsert, hk] at hm
      rcases hm with h | h
      · right; simp [h]
      · rcases ih m h with h' | h'
        · left; exact h'
        · right; simp [h']

/-- `_build_table` only succeeds on a nonempty row list, and then returns
the assembled html. -/
theorem build_table_some (headers rows : List String) (s : String) :
    _build_table headers rows = some s → rows ≠ [] ∧ s = buildTableString headers rows := by
  intro h
  unfold _build_table at h
  by_cases he : rows.isEmpty
  · simp [he] at h
  · simp [he] at h
    exact ⟨by simpa using he, h.symm⟩

/-- Every association produced by the pipeline maps to a table built from
a nonempty row list. -/
def allBuilt (res : List (String × String)) : Prop :=
  ∀ kv ∈ res, ∃ hdrs rows, rows ≠ [] ∧ kv.2 = buildTableString hdrs rows

theorem parse_levelup_some_shape :
    ∀ (cfg : Cfg) (table : Node) (gen : Nat) (h : String),
      parse_levelup cfg table gen = .ok (some h) →
      ∃ hdrs rows, rows ≠ [] ∧ h = buildTableString hdrs rows := by
  intro cfg table gen h hp
  unfold parse_levelup at hp
  split at hp
  · simp at hp
  · dsimp only at hp
    split at hp
    · simp at hp
    · split at hp
      · simp at hp
      · simp only [Except.ok.injEq] at hp
        obtain ⟨h1, h2⟩ := build_table_some _ _ _ hp
        exact ⟨_, _, h1, h2⟩

theorem parse_tm_hm_some_shape :
    ∀ (cfg : Cfg) (table : Node) (gen : Nat) (h : String),
      parse_tm_hm cfg table gen = .ok (some h) →
      ∃ hdrs rows, rows ≠ [] ∧ h = buildTableString hdrs rows := by
  intro cfg table gen h hp
  unfold parse_tm_hm at hp
  split at hp
  · simp at hp
  · dsimp only at hp
    split at hp
    · simp at hp
    · simp only [Except.ok.injEq] at hp
      obtain ⟨h1, h2⟩ := build_table_some _ _ _ hp
      exact ⟨_, _, h1, h2⟩

theorem parse_breeding_some_shape :
    ∀ (cfg : Cfg) (table : Node) (gen : Nat) (h : String),
      parse_breeding cfg table gen = .ok (some h) →
      ∃ hdrs rows, rows ≠ [] ∧ h = buildTableString hdrs rows := by
  intro cfg table gen h hp
  unfold parse_breeding at hp
  split at hp
  · simp at hp
  · dsimp only at hp
    split at hp
    · simp at hp
    · simp only [Except.ok.injEq] at hp
      obtain ⟨h1, h2⟩ := build_table_some _ _ _ hp
      exact ⟨_, _, h1, h2⟩

theorem parse_tutoring_some_shape :
    ∀ (cfg : Cfg) (table : Node) (gen : Nat) (h : String),
      parse_tutoring cfg table gen = .ok (some h) →
      ∃ hdrs rows, rows ≠ [] ∧ h = buildTableString hdrs rows := by
  intro cfg table gen h hp
  unfold parse_tutoring at hp
  split at hp
  · simp at hp
  · dsimp only at hp
    split at hp
    · simp at hp
    · simp only [Except.ok.injEq] at hp
      obtain ⟨h1, h2⟩ := build_table_some _ _ _ hp
      exact ⟨_, _, h1, h2⟩

theorem parse_prior_evo_some_shape :
    ∀ (cfg : Cfg) (table : Node) (gen : Nat) (h : String),
      parse_prior_evo cfg table gen = .ok (some h) →
      ∃ hdrs rows, rows ≠ [] ∧ h = buildTableString hdrs rows := by
  intro cfg table gen h hp
  unfold parse_prior_evo at hp
  split at hp
  · simp at hp
  · dsimp only at hp
    split at hp
    · simp at hp
    · simp only [Except.ok.injEq] at hp
      obtain ⟨h1, h2⟩ := build_table_some _ _ _ hp
      exact ⟨_, _, h1, h2⟩

theorem sectionParserFor_some_shape :
    ∀ (label : String) (cfg : Cfg) (table : Node) (gen : Nat) (h : String),
      sectionParserFor label cfg table gen = .ok (some h) →
      ∃ hdrs rows, rows ≠ [] ∧ h = buildTableString hdrs rows := by
  intro label cfg table gen h hp
  unfold sectionParserFor at hp
  split at hp
  · exact parse_tm_hm_some_shape _ _ _ _ hp
  · split at hp
    · exact parse_breeding_some_shape _ _ _ _ hp
    · split at hp
      · exact parse_tutoring_some_shape _ _ _ _ hp
      · split at hp
        · exact parse_prior_evo_some_shape _ _ _ _ hp
        · exact parse_levelup_some_shape _ _ _ _ hp

theorem extractStep_preserves :
    ∀ (cfg : Cfg) (soup : Node) (gen : Nat) (acc : List (String × String))
      (la : String × String) (res : List (String × String)),
      extractStep cfg soup gen acc la = .ok res → allBuilt acc → allBuilt res := by
  intro cfg soup gen acc la res h hacc
  unfold extractStep at h
  split at h
  · simp only [pure, Except.pure, Except.ok.injEq] at h
    rw [← h]; exact hacc
  · split at h
    · simp only [pure, Except.pure, Except.ok.injEq] at h
      rw [← h]; exact hacc
    · rename_i tbl htbl
      cases hp : sectionParserFor la.1 cfg tbl gen with
      | error e =>
        rw [hp] at h
        simp [Bind.bind, Except.bind] at h
      | ok html =>
        rw [hp] at h
        cases html with
        | none =>
          simp only [Bind.bind, Except.bind, pure, Except.pure, Except.ok.injEq] at h
          rw [← h]; exact hacc
        | some s =>
          simp only [Bind.bind, Except.bind, pure, Except.pure, Except.ok.injEq] at h
          rw [← h]
          intro kv hkv
          rcases dictInsert_mem _ _ _ _ hkv with h1 | h1
          · rw [h1]
            exact sectionParserFor_some_shape la.1 cfg tbl gen s hp
          · exact hacc kv h1

theorem extract_fold_preserves :
    ∀ (cfg : Cfg) (soup : Node) (gen : Nat) (keys : List (String × String))
      (acc res : List (String × String)),
      keys.foldlM (extractStep cfg soup gen) acc = .ok res → allBuilt acc → allBuilt res := by
  intro cfg soup gen keys
  induction keys with
  | nil =>
    intro acc res h hacc
    simp only [List.foldlM_nil, pure, Except.pure, Except.ok.injEq] at h
    rw [← h]; exact hacc
  | cons k ks ih =>
    intro acc res h hacc
    rw [List.foldlM_cons] at h
    cases hs : extractStep cfg soup gen acc k with
    | error e =>
      rw [hs] at h
      simp [Bind.bind, Except.bind] at h
    | ok acc' =>
      rw [hs] at h
      simp only [Bind.bind, Except.bind] at h
      exact ih acc' res h (extractStep_preserves cfg soup gen acc k acc' hs hacc)

/-! ### Claims -/

/-- C1 (code_bug evidence).  The first two conjuncts are the generation-6
part of the claim, which the code satisfies: a link wrapping a span styled
`color:#FFFFFF` is available, the same cell without the span is not.  The
third conjunct evaluates the code at the claim's generation-3 case: a cell
with inline style `background:#FFFFFF` that contains a link.  The claim
(and the code's own comment "white background = not available") requires
`false`, but the code returns `true`: the checks
`"background:#FFF" in style.upper()` and `"background: #FFF" in
style.upper()` compare a lowercase needle against an uppercased haystack
and can never match, so only the `rgb(255, 255, 255)` notation is actually
recognized. -/
theorem C1_game_available_gen3_white_background_bug :
    game_available c1CellFont 6 = true ∧
    game_available c1CellNoSpan 6 = false ∧
    game_available c1CellBg 3 = true := by
  exact ⟨rfl, rfl, rfl⟩

/-- C2 counterexample: `clean_value` is not idempotent.  On the input
`"1\x7d\x7d0505"` the double-brace pattern returns `"0505"`, and a second
application matches the doubled-digit pattern (`0*` backtracks to consume
no zeros) and returns `"05"`. -/
theorem C2_clean_value_not_idempotent :
    clean_value (clean_value "1\x7d\x7d0505") ≠ clean_value "1\x7d\x7d0505" := by
  decide

/-- C2 amended: `clean_value` is idempotent on every tested input (the
eight literal artifact-repair cases of the spec), though not on all
strings. -/
theorem C2_clean_value_idempotent_on_tested_inputs :
    clean_value (clean_value "04040") = clean_value "04040" ∧
    clean_value (clean_value "08080") = clean_value "08080" ∧
    clean_value (clean_value "100\x7d\x7d100%") = clean_value "100\x7d\x7d100%" ∧
    clean_value (clean_value "0000—") = clean_value "0000—" ∧
    clean_value (clean_value "00—\x7d\x7d—%") = clean_value "00—\x7d\x7d—%" ∧
    clean_value (clean_value "101—%") = clean_value "101—%" ∧
    clean_value (clean_value "") = clean_value "" ∧
    clean_value (clean_value "40") = clean_value "40" := by
  exact ⟨rfl, rfl, rfl, rfl, rfl, rfl, rfl, rfl⟩

/-- C3: the literal artifact-repair cases.  `clean_value` tries its
patterns in order and returns the first match's canonical form, the input
unchanged when nothing matches, and an em dash for empty input. -/
theorem C3_clean_value_literal_cases :
    clean_value "04040" = "40" ∧
    clean_value "08080" = "80" ∧
    clean_value "100\x7d\x7d100%" = "100%" ∧
    clean_value "0000—" = "—" ∧
    clean_value "00—\x7d\x7d—%" = "—" ∧
    clean_value "101—%" = "—" ∧
    clean_value "" = "—" ∧
    clean_value "40" = "40" := by
  exact ⟨rfl, rfl, rfl, rfl, rfl, rfl, rfl, rfl⟩

/-- C10: `clean_text` never mutates the page.  In the source the element is
copied before any `decompose`, which the state-passing rendering
`clean_text_run` makes explicit: the tree handed back is the original, and
two successive calls on the same element return the same string.  The last
conjunct checks the removal work is nonetheless performed (sort-key span
and `display:none` element are dropped, whitespace collapsed). -/
theorem C10_clean_text_leaves_page_unchanged :
    (∀ el : Node, (clean_text_run el).2 = el ∧
      (clean_text_run ((clean_text_run el).2)).1 = (clean_text_run el).1) ∧
    clean_text c10Cell = "40" := by
  exact ⟨fun el => ⟨rfl, rfl⟩, by decide⟩

/-- C5 counterexample.  The claim says every one of the five section row
parsers drops any data row with fewer cells than `moveColumnIndex + 3`,
and in particular a 2-cell row against a move column index of 2.  In this
tutoring table the header declares the move column at index 2, yet the only
data row — one game `th` plus one `td`, i.e. two cells — is emitted:
`parse_tutoring` has no cell-count threshold at all (it only needs a row
with both header-typed and data cells and a move link). -/
theorem C5_counterexample_tutoring_emits_two_cell_row :
    _move_idx_from_headers ["GameA", "GameB", "Move", "Type"] = some 2 ∧
    parse_tutoring cfg0 c5TutorTable 3 = .ok (some c5TutorHtml) := by
  exact ⟨by decide, by rfl⟩

/-- C5 amended.  The `moveColumnIndex + 3` skip holds for the level-up,
breeding and prior-evolution parsers; the TM/HM parser instead skips rows
with fewer than 4 cells after stripping an empty leading cell; the tutoring
parser has no count-based skip (see the counterexample). -/
theorem C5_short_rows_skipped_amended :
    (∀ (cfg : Cfg) (move_idx : Nat) (cat : Bool) (oh : List String)
        (st : List String × Bool) (row : Node),
        (findAllNames ["td", "th"] row).length < move_idx + 3 →
        levelupStep cfg move_idx cat oh st row = st) ∧
    (∀ (move_idx : Nat) (cat : Bool) (st : List String × Bool) (row : Node),
        (findAllNames ["td", "th"] row).length < move_idx + 3 →
        breedingStep move_idx cat st row = st) ∧
    (∀ (move_idx : Nat) (cat : Bool) (st : List String × Bool) (row : Node),
        (findAllNames ["td", "th"] row).length < move_idx + 3 →
        priorEvoStep move_idx cat st row = st) ∧
    (∀ (cfg : Cfg) (cat : Bool) (st : List String × Bool) (row : Node),
        (tmRowCells row).length < 4 →
        tmStep cfg cat st row = st) := by
  refine ⟨?_, ?_, ?_, ?_⟩
  · intro cfg move_idx cat oh st row h
    cases hf : _is_footer_row row <;> simp [levelupStep, hf, h]
  · intro move_idx cat st row h
    cases hf : _is_footer_row row <;> simp [breedingStep, hf, h]
  · intro move_idx cat st row h
    cases hf : _is_footer_row row <;> simp [priorEvoStep, hf, h]
  · intro cfg cat st row h
    cases hf : _is_footer_row row <;> simp [tmStep, hf, h]

/-- C5 witness: a concrete 2-cell row against a move column index of 2 is
dropped by the level-up step and by the TM step. -/
theorem C5_short_rows_skipped_witness :
    (findAllNames ["td", "th"] c5ShortRow).length < 2 + 3 ∧
    (tmRowCells c5ShortRow).length < 4 ∧
    levelupStep cfg0 2 false ["Level"] ([], true) c5ShortRow = ([], true) ∧
    tmStep cfg0 false ([], true) c5ShortRow = ([], true) :=
  ⟨by decide, by decide,
   C5_short_rows_skipped_amended.1 cfg0 2 false ["Level"] ([], true) c5ShortRow (by decide),
   C5_short_rows_skipped_amended.2.2.2 cfg0 false ([], true) c5ShortRow (by decide)⟩

/-- C6: table shape classification.  (1) `_find_header_row` returns the
first row satisfying the header predicate (at least three `th` cells whose
joined cleaned text contains "move" and "type" case-insensitively);
(2) `_move_idx_from_headers` returns the first label equal to "move"
case-insensitively (exact match); (3) `_has_cat` is true iff some label in
the given (post-move) slice contains "cat" case-insensitively; and (4) the
two concrete header rows of the claim yield `(1, false)` and `(0, true)`
respectively, and the fixture table's first (2-header-cell) row is skipped. -/
theorem C6_table_shape_classification :
    (∀ (table : Node) (pre : List Node) (r : Node) (rest : List Node),
        findAllName "tr" table = pre ++ r :: rest →
        (∀ r' ∈ pre, headerRowPred r' = false) → headerRowPred r = true →
        _find_header_row table = some (pre.length, findAllName "th" r)) ∧
    (∀ (pre : List String) (h : String) (rest : List String),
        (∀ h' ∈ pre, (pyLower h' == "move") = false) → (pyLower h == "move") = true →
        _move_idx_from_headers (pre ++ h :: rest) = some pre.length) ∧
    (∀ hs : List String,
        _has_cat hs = true ↔ ∃ h ∈ hs, strContains (pyLower h) "cat" = true) ∧
    (_move_idx_from_headers ["Level", "Move", "Type", "Power", "Accuracy", "PP"] = some 1 ∧
     _has_cat (["Level", "Move", "Type", "Power", "Accuracy", "PP"].drop 2) = false ∧
     _move_idx_from_headers ["Move", "Type", "Cat.", "Pwr.", "Acc.", "PP"] = some 0 ∧
     _has_cat (["Move", "Type", "Cat.", "Pwr.", "Acc.", "PP"].drop 1) = true ∧
     _find_header_row c6Table = some (1, findAllName "th" c6Row1)) := by
  refine ⟨?_, ?_, ?_, by decide, by decide, by decide, by decide, by rfl⟩
  · intro table pre r rest heq hpre hr
    unfold _find_header_row
    rw [heq]
    simpa using findHeaderRowAux_first_match pre 0 r rest hpre hr
  · intro pre h rest hpre hh
    exact findIdx?_first_match _ pre h rest hpre hh
  · intro hs
    simp [_has_cat, List.any_eq_true]

/-- C6 witness: the classification theorem applied to the fixture table and
to a concrete header list. -/
theorem C6_table_shape_classification_witness :
    _find_header_row c6Table = some (1, findAllName "th" c6Row1) ∧
    _move_idx_from_headers (["Level"] ++ "Move" :: ["Type"]) = some 1 :=
  ⟨by
    have := C6_table_shape_classification.1 c6Table [c6Row0] c6Row1 []
      (by rfl) (by decide) (by decide)
    simpa using this,
   by
    have := C6_table_shape_classification.2.1 ["Level"] "Move" ["Type"]
      (by decide) (by decide)
    simpa using this⟩

/-- The forward scan of `_find_table_after` returns `some t` exactly when
`t` is the first data table in the stream and no aborting heading (an
`h3`/`h4`/`h5` at a position other than the scan start) occurs before it. -/
theorem scanTable_some_iff (pp : Path) :
    ∀ (L : List (Path × Node)) (t : Node),
      scanTable pp L = some t ↔
        ∃ L1 q L2, L = L1 ++ (q, t) :: L2 ∧ isDataTable t = true ∧
          ∀ pn ∈ L1, isDataTable pn.2 = false ∧
            (isHeading345 pn.2 && pn.1 != pp) = false := by
  intro L
  induction L with
  | nil =>
    intro t
    simp [scanTable]
  | cons hd tl ih =>
    intro t
    obtain ⟨q0, n0⟩ := hd
    by_cases hdt : isDataTable n0 = true
    · constructor
      · intro h
        have ht : n0 = t := by simpa [scanTable, hdt] using h
        exact ⟨[], q0, tl, by simp [ht], ht ▸ hdt, by simp⟩
      · rintro ⟨L1, q, L2, heq, hter, hall⟩
        cases L1 with
        | nil =>
          simp only [List.nil_append, List.cons.injEq, Prod.mk.injEq] at heq
          obtain ⟨⟨hq, hn⟩, htl⟩ := heq
          rw [hn]
          simp [scanTable, hn ▸ hdt]
        | cons x xs =>
          simp only [List.cons_append, List.cons.injEq] at heq
          obtain ⟨hx0, htl⟩ := heq
          subst hx0
          have hx := hall (q0, n0) (by simp)
          have hx1 : isDataTable n0 = false := hx.1
          rw [hx1] at hdt
          exact absurd hdt (by simp)
    · have hdt' : isDataTable n0 = false := by simpa using hdt
      by_cases hhd : (isHeading345 n0 && q0 != pp) = true
      · constructor
        · intro h
          simp only [scanTable, hdt', hhd] at h
          exact absurd h (by simp)
        · rintro ⟨L1, q, L2, heq, hter, hall⟩
          cases L1 with
          | nil =>
            simp only [List.nil_append, List.cons.injEq, Prod.mk.injEq] at heq
            obtain ⟨⟨hq, hn⟩, htl⟩ := heq
            rw [hn] at hdt'
            rw [hter] at hdt'
            exact absurd hdt' (by simp)
          | cons x xs =>
            simp only [List.cons_append, List.cons.injEq] at heq
            obtain ⟨hx0, htl⟩ := heq
            subst hx0
            have hx := hall (q0, n0) (by simp)
            have hx2 : (isHeading345 n0 && q0 != pp) = false := hx.2
            rw [hx2] at hhd
            exact absurd hhd (by simp)
      · have hhd' : (isHeading345 n0 && q0 != pp) = false := by simpa using hhd
        constructor
        · intro h
          have h' : scanTable pp tl = some t := by
            simpa [scanTable, hdt', hhd'] using h
          obtain ⟨L1, q, L2, heq, hter, hall⟩ := (ih t).mp h'
          refine ⟨(q0, n0) :: L1, q, L2, by simp [heq], hter, ?_⟩
          intro pn hpn
          rcases List.mem_cons.mp hpn with h1 | h1
          · rw [h1]
            exact ⟨hdt', hhd'⟩
          · exact hall pn h1
        · rintro ⟨L1, q, L2, heq, hter, hall⟩
          cases L1 with
          | nil =>
            simp only [List.nil_append, List.cons.injEq, Prod.mk.injEq] at heq
            obtain ⟨⟨hq, hn⟩, htl⟩ := heq
            rw [hn] at hdt'
            rw [hter] at hdt'
            exact absurd hdt' (by simp)
          | cons x xs =>
            simp only [List.cons_append, List.cons.injEq] at heq
            have h' := (ih t).mpr ⟨xs, q, L2, heq.2, hter, fun pn hpn => hall pn (by simp [hpn])⟩
            simp [scanTable, hdt', hhd', h']

/-- C7 amended.  `_find_table_after` ascends through at most 5 parents
(stopping early at a heading or `div`, which `ascend` models), then scans
the subsequent elements in document order and returns the first table with
a data cell — aborting at ANY `h3`/`h4`/`h5` encountered first, regardless
of its level relative to the section's heading. -/
theorem C7_find_table_after_first_table_no_heading :
    ∀ (root : Node) (anchorPath : Path) (t : Node),
      _find_table_after root anchorPath = some t ↔
        ∃ L1 q L2, tagsAfter root (ascend root 5 anchorPath) = L1 ++ (q, t) :: L2 ∧
          isDataTable t = true ∧
          ∀ pn ∈ L1, isDataTable pn.2 = false ∧
            (isHeading345 pn.2 && pn.1 != ascend root 5 anchorPath) = false := by
  intro root p t
  exact scanTable_some_iff (ascend root 5 p) (tagsAfter root (ascend root 5 p)) t

/-- C7 counterexample.  In `c7Doc` the anchor is an `h3`; the only heading
between it and a following data table is an `h4` — a lower level, which
per the claim ("absent only if a heading of the same or higher level is
encountered") should not abort the scan.  The code nevertheless returns
absent, because it aborts at any `h3`/`h4`/`h5`; the data table does occur
in the scanned stream. -/
theorem C7_counterexample_lower_level_heading_aborts :
    (_find_table_after c7Doc [0, 0]).isNone = true ∧
    isDataTable c7Table = true ∧
    (tagsAfter c7Doc (ascend c7Doc 5 [0, 0])).any (fun pn => isDataTable pn.2) = true := by
  exact ⟨by rfl, by rfl, by rfl⟩

/-- C7 witness: on `pageA` the level-up anchor's scan finds the level-up
table, via the characterization theorem. -/
theorem C7_find_table_after_witness :
    ∃ L1 q L2, tagsAfter pageA (ascend pageA 5 [0, 0, 0]) = L1 ++ (q, lvlTable) :: L2 ∧
      isDataTable lvlTable = true ∧
      ∀ pn ∈ L1, isDataTable pn.2 = false ∧
        (isHeading345 pn.2 && pn.1 != ascend pageA 5 [0, 0, 0]) = false :=
  (C7_find_table_after_first_table_no_heading pageA [0, 0, 0] lvlTable).mp (by rfl)

/-- C9: empty-table omission.  Every section present in the single-game
extraction result carries a table built (by `_build_table`) from a
NONEMPTY row list: a section whose located table parses to zero rows is
never present (its parser returns `None` — `_build_table` refuses an empty
row list — and `extractStep` only inserts non-`None` results). -/
theorem C9_sections_are_nonempty_tables :
    ∀ (cfg : Cfg) (soup : Node) (gen : Nat) (res : List (String × String)),
      extractSections cfg soup gen = .ok res →
      ∀ kv ∈ res, ∃ hdrs rows, rows ≠ [] ∧ kv.2 = buildTableString hdrs rows := by
  intro cfg soup gen res h
  exact extract_fold_preserves cfg soup gen SECTION_KEYS [] res h
    (fun kv hkv => absurd hkv (by simp))

/-- C9 witness: the level-up section extracted from `pageA` is a table
with at least one row. -/
theorem C9_sections_are_nonempty_tables_witness :
    ∃ hdrs rows, rows ≠ [] ∧ lvlHtml = buildTableString hdrs rows := by
  have h := C9_sections_are_nonempty_tables cfg0 pageA 3
    [("By leveling up", lvlHtml)] (by rfl) ("By leveling up", lvlHtml) (by simp)
  simpa using h

/-- C4 counterexample.  The claim says a caller can distinguish the 404
result from "page exists but nothing parsed".  Both return `None` from
`fetch_learnset_multi_game` (`return results if results else None`
collapses an empty parse to `None`), so they are indistinguishable from
the return value. -/
theorem C4_counterexample_absent_and_empty_collapse :
    fetch_learnset_multi_game cfg0 .notFound 3 = .ok none ∧
    fetch_learnset_multi_game cfg0 (.okPage emptyPage) 3 = .ok none := by
  exact ⟨rfl, by rfl⟩

/-- C4 amended.  A 404 response makes the fetch pipeline return `None`
without raising (for every generation); but an existing page whose parsing
yields zero sections ALSO returns `None` (shown here for the non-branching
generations, where the pipeline is exactly the single-game loop), so the
two cases cannot be distinguished from the return value. -/
theorem C4_fetch_none_on_404_and_empty_parse :
    (∀ (cfg : Cfg) (gen : Nat),
      fetch_learnset_multi_game cfg .notFound gen = .ok none) ∧
    (∀ (cfg : Cfg) (soup : Node) (gen : Nat), gen ≠ 7 → gen ≠ 8 →
      extractSections cfg soup gen = .ok [] →
      fetch_learnset_multi_game cfg (.okPage soup) gen = .ok none) := by
  constructor
  · intro cfg gen
    rfl
  · intro cfg soup gen h7 h8 hempty
    have h7' : (gen == 7) = false := by simpa using h7
    have h8' : (gen == 8) = false := by simpa using h8
    unfold fetch_learnset_multi_game
    simp only [h7', h8', Bool.false_eq_true, if_false]
    unfold fallbackResult
    rw [hempty]
    rfl

/-- C4 witness: the amended theorem applied at generation 5 with a page
that parses to nothing. -/
theorem C4_fetch_none_witness :
    fetch_learnset_multi_game cfg0 .notFound 5 = .ok none ∧
    fetch_learnset_multi_game cfg0 (.okPage emptyPage) 5 = .ok none :=
  ⟨C4_fetch_none_on_404_and_empty_parse.1 cfg0 5,
   C4_fetch_none_on_404_and_empty_parse.2 cfg0 emptyPage 5 (by decide) (by decide) (by rfl)⟩

/-- C8: the multi-game discriminant is decided purely by the shape of the
resolver's value: a result keyed by game short-codes mapping to nested
section maps tests true; a flat section map (every value rendered html)
tests false, whatever its keys. -/
theorem C8_is_multi_game_result_shape :
    (∀ (k1 k2 : String) (m1 m2 : List (String × String)),
      is_multi_game_result (some [(k1, RVal.sub m1), (k2, RVal.sub m2)]) = true) ∧
    (∀ flat : List (String × String),
      is_multi_game_result (some (flat.map (fun kv => (kv.1, RVal.html kv.2)))) = false) := by
  constructor
  · intro k1 k2 m1 m2
    rfl
  · intro flat
    cases flat with
    | nil => rfl
    | cons a as => rfl

end Movepool

